import Mathlib

/-!
Verification development for the `river-bsp-layout` partition engine and
command interpreter (`src/lib.rs`, `src/user_cmd.rs`).

Modelling conventions:
* Rust `u32` values are modelled as `Nat`, `i32` as `Int`.  Subtractions that
  would underflow a `u32` in Rust (a panic in debug builds) are modelled by the
  abnormal result `none`, likewise non-terminating recursion.
* Rust `f32` split percentages are modelled as exact rationals `ℚ`.  The cast
  `(w as f32 * p) as u32` (truncation of a non-negative product) is modelled by
  `ratFloorMul`, which equals `⌊w * p⌋` (see `ratFloorMul_eq_floor`).
* The mutually recursive `hsplit`/`vsplit` pair is modelled by one
  fuel-indexed function `bspSplit` whose `true` arm is the body of Rust
  `hsplit` and whose `false` arm is the body of Rust `vsplit`; each recursive
  call flips the arm exactly as the Rust functions call each other.  `none`
  means the recursion did not finish within `fuel` unfoldings.
-/

/-- Rectangle from `river_layout_toolkit`: signed origin, unsigned extent. -/
structure Rectangle where
  x : Int
  y : Int
  width : Nat
  height : Nat
deriving DecidableEq, Repr

/-- Error type of `BSPLayout` (lib.rs 10-16). -/
inductive BSPLayoutError where
  | CmdError (msg : String)
  | LayoutError (msg : String)
deriving DecidableEq, Repr

instance {ε α : Type} [DecidableEq ε] [DecidableEq α] : DecidableEq (Except ε α)
  | .error e, .error f => decidable_of_iff (e = f) (by simp)
  | .error _, .ok _ => .isFalse (by simp)
  | .ok _, .error _ => .isFalse (by simp)
  | .ok a, .ok b => decidable_of_iff (a = b) (by simp)

/-- Configuration state of the layout (lib.rs 30-70).  Gap fields are `u32`
pixels, split percentages are `f32` fractions modelled as `ℚ`. -/
structure BSPLayout where
  ig_left : Nat
  ig_right : Nat
  ig_bottom : Nat
  ig_top : Nat
  og_left : Nat
  og_right : Nat
  og_bottom : Nat
  og_top : Nat
  hsplit_perc : ℚ
  vsplit_perc : ℚ
  start_hsplit : Bool
  reversed : Bool
deriving DecidableEq, Repr

/-- The rational 1/2, written with explicit numerator and denominator so that
it reduces in the kernel. -/
def halfQ : ℚ := ⟨1, 2, by decide, by decide⟩

/-- Model of `BSPLayout::new` (lib.rs 79-94). -/
def BSPLayout.new : BSPLayout where
  ig_left := 5
  ig_right := 5
  ig_bottom := 5
  ig_top := 5
  og_left := 10
  og_right := 10
  og_bottom := 10
  og_top := 10
  hsplit_perc := halfQ
  vsplit_perc := halfQ
  reversed := false
  start_hsplit := false

/-- Model of the Rust expression `(w as f32 * p) as u32` with the `f32`
arithmetic idealised to exact rational arithmetic: the product `w * p` is
truncated toward zero (equivalently floored, as it is non-negative whenever
`p ≥ 0`). -/
def ratFloorMul (w : Nat) (p : ℚ) : Nat :=
  (((w : Int) * p.num) / (p.den : Int)).toNat

/-- Model of `BSPLayout::setup_split` (lib.rs 136-155): validates the split
percentages and computes `(half_view_count, views_remaining)`.  The empty
initial layout is represented implicitly. -/
def setup_split (c : BSPLayout) (view_count : Nat) :
    Except BSPLayoutError (Nat × Nat) :=
  if c.vsplit_perc ≤ 0 ∨ 1 ≤ c.vsplit_perc ∨ c.hsplit_perc ≤ 0 ∨ 1 ≤ c.hsplit_perc then
    .error (.LayoutError "Split percents must be > 0.0 and less than 1.0")
  else
    .ok (view_count / 2, view_count % 2)

/-- Model of the clamped primary extent computed by `hsplit`/`vsplit`
(lib.rs 210-216 and 314-320): `(canvas as f32 * perc) as u32`, raised to 1
when 0, lowered to `canvas - 1` when `≥ canvas`.  Callers guard `canvas ≠ 0`
separately, because the Rust `canvas - 1` underflows there. -/
def clampSplit (canvas : Nat) (perc : ℚ) : Nat :=
  let ps0 := ratFloorMul canvas perc
  let ps1 := if ps0 = 0 then 1 else ps0
  if canvas ≤ ps1 then canvas - 1 else ps1

/-- Model of the recursive-extent expressions of `hsplit`/`vsplit`
(lib.rs 235-239, 247-251, 339-343, 351-355): `if gap < ext then ext - gap
else 1`, never zero. -/
def childExtent (gap ext : Nat) : Nat :=
  if gap < ext then ext - gap else 1

/-- Fuel-indexed model of the mutually recursive pair `BSPLayout::hsplit`
(lib.rs 187-259, the `true` arm) and `BSPLayout::vsplit` (lib.rs 291-364, the
`false` arm).  `none` models a computation that does not finish: either the
recursion does not terminate within `fuel` nested calls, or the `u32`
subtraction `canvas - 1` underflows (Rust would panic in a debug build).  The
`canvas = 0` test placed before `clampSplit` is exactly the condition under
which that subtraction is reached with `canvas = 0`, because the clamp branch
`prime_split >= canvas` is always taken then. -/
def bspSplit (c : BSPLayout) :
    Nat → Bool → Int → Int → Nat → Nat → Nat →
    Option (Except BSPLayoutError (List Rectangle))
  | 0, _, _, _, _, _, _ => none
  | fuel + 1, horiz, origin_x, origin_y, canvas_width, canvas_height, view_count =>
    match horiz with
    | true =>
      match setup_split c view_count with
      | .error e => some (.error e)
      | .ok (half_view_count, views_remaining) =>
        if view_count = 1 then
          some (.ok [⟨origin_x, origin_y, canvas_width, canvas_height⟩])
        else
          if canvas_height = 0 then none
          else
            let prime_split := clampSplit canvas_height c.hsplit_perc
            let sec_split := canvas_height - prime_split
            let prime_sub := if !c.reversed then c.ig_bottom else c.ig_top
            let sec_sub := if !c.reversed then c.ig_top else c.ig_bottom
            let prime_y := if !c.reversed then origin_y
              else (sec_split : Int) + origin_y + (prime_sub : Int)
            let sec_y := if !c.reversed then (prime_split : Int) + origin_y + (sec_sub : Int)
              else origin_y
            match bspSplit c fuel false origin_x prime_y canvas_width
                (childExtent prime_sub prime_split) half_view_count with
            | none => none
            | some (.error e) => some (.error e)
            | some (.ok prime_views) =>
              match bspSplit c fuel false origin_x sec_y canvas_width
                  (childExtent sec_sub sec_split)
                  (half_view_count + views_remaining) with
              | none => none
              | some (.error e) => some (.error e)
              | some (.ok sec_views) => some (.ok (prime_views ++ sec_views))
    | false =>
      match setup_split c view_count with
      | .error e => some (.error e)
      | .ok (half_view_count, views_remaining) =>
        if view_count = 1 then
          some (.ok [⟨origin_x, origin_y, canvas_width, canvas_height⟩])
        else
          if canvas_width = 0 then none
          else
            let prime_split := clampSplit canvas_width c.vsplit_perc
            let sec_split := canvas_width - prime_split
            let prime_sub := if !c.reversed then c.ig_right else c.ig_left
            let sec_sub := if !c.reversed then c.ig_left else c.ig_right
            let prime_x := if !c.reversed then origin_x
              else (sec_split : Int) + origin_x + (prime_sub : Int)
            let sec_x := if !c.reversed then (prime_split : Int) + origin_x + (sec_sub : Int)
              else origin_x
            match bspSplit c fuel true prime_x origin_y
                (childExtent prime_sub prime_split) canvas_height half_view_count with
            | none => none
            | some (.error e) => some (.error e)
            | some (.ok prime_views) =>
              match bspSplit c fuel true sec_x origin_y
                  (childExtent sec_sub sec_split)
                  canvas_height (half_view_count + views_remaining) with
              | none => none
              | some (.error e) => some (.error e)
              | some (.ok sec_views) => some (.ok (prime_views ++ sec_views))

/-- Model of `BSPLayout::hsplit` (lib.rs 187-259), fuel-indexed. -/
def hsplit (c : BSPLayout) (fuel : Nat) (origin_x origin_y : Int)
    (canvas_width canvas_height view_count : Nat) :
    Option (Except BSPLayoutError (List Rectangle)) :=
  bspSplit c fuel true origin_x origin_y canvas_width canvas_height view_count

/-- Model of `BSPLayout::vsplit` (lib.rs 291-364), fuel-indexed. -/
def vsplit (c : BSPLayout) (fuel : Nat) (origin_x origin_y : Int)
    (canvas_width canvas_height view_count : Nat) :
    Option (Except BSPLayoutError (List Rectangle)) :=
  bspSplit c fuel false origin_x origin_y canvas_width canvas_height view_count

/-- Model of `BSPLayout::generate_layout` (lib.rs 603-628).  The `u32`
subtractions `usable_width - og_left - og_right` and
`usable_height - og_top - og_bottom` underflow (debug-build panic) when the
outer gaps exceed the usable size; that abnormal case is modelled as `none`.
The fuel `view_count + 1` is sufficient for every terminating run because each
recursion level strictly decreases the view count and stops at 1. -/
def generate_layout (c : BSPLayout) (view_count usable_width usable_height : Nat) :
    Option (Except BSPLayoutError (List Rectangle)) :=
  if usable_width < c.og_left + c.og_right ∨ usable_height < c.og_top + c.og_bottom then
    none
  else if !c.start_hsplit then
    vsplit c (view_count + 1) (c.og_left : Int) (c.og_top : Int)
      (usable_width - c.og_left - c.og_right) (usable_height - c.og_top - c.og_bottom)
      view_count
  else
    hsplit c (view_count + 1) (c.og_left : Int) (c.og_top : Int)
      (usable_width - c.og_left - c.og_right) (usable_height - c.og_top - c.og_bottom)
      view_count

/-- Typed command structure produced by the argument-parsing layer
(user_cmd.rs 5-97). -/
structure UserCmd where
  default_inner_gap : Option Nat := none
  ig_left : Option Nat := none
  ig_right : Option Nat := none
  ig_bottom : Option Nat := none
  ig_top : Option Nat := none
  default_outer_gap : Option Nat := none
  og_left : Option Nat := none
  og_right : Option Nat := none
  og_bottom : Option Nat := none
  og_top : Option Nat := none
  default_split_perc : Option ℚ := none
  hsplit_perc : Option ℚ := none
  vsplit_perc : Option ℚ := none
  start_hsplit : Bool := false
  start_vsplit : Bool := false
  inc_hsplit : Option ℚ := none
  inc_vsplit : Option ℚ := none
  dec_vsplit : Option ℚ := none
  dec_hsplit : Option ℚ := none
  reverse : Bool := false
deriving DecidableEq, Repr

/-- The clamp constant `0.9999` used by the inc commands (lib.rs 554, 561). -/
def q9999 : ℚ := ⟨9999, 10000, by decide, by decide⟩

/-- The clamp constant `0.0001` used by the dec commands (lib.rs 569, 576). -/
def q0001 : ℚ := ⟨1, 10000, by decide, by decide⟩

/-- Model of `UserCmd::handle_start_split` (user_cmd.rs 174-190), which is
also the inlined start-flag block of `BSPLayout::user_cmd` (lib.rs 486-495). -/
def UserCmd.handle_start_split (cmd : UserCmd) (c : BSPLayout) :
    Except BSPLayoutError BSPLayout :=
  if cmd.start_hsplit && cmd.start_vsplit then
    .error (.CmdError
      "start-hsplit and start-vsplit are mutually exclusive. Please select only one")
  else if cmd.start_hsplit && !cmd.start_vsplit then .ok { c with start_hsplit := true }
  else if cmd.start_vsplit && !cmd.start_hsplit then .ok { c with start_hsplit := false }
  else .ok c

/-- Model of `UserCmd::handle_reverse` (user_cmd.rs 205-209), inlined in
`BSPLayout::user_cmd` at lib.rs 497-499. -/
def UserCmd.handle_reverse (cmd : UserCmd) (c : BSPLayout) : BSPLayout :=
  if cmd.reverse then { c with reversed := !c.reversed } else c

/-- Model of `UserCmd::handle_set_split` (user_cmd.rs 192-203), inlined in
`BSPLayout::user_cmd` at lib.rs 501-510. -/
def UserCmd.handle_set_split (cmd : UserCmd) (c : BSPLayout) : BSPLayout :=
  let c := match cmd.default_split_perc with
    | some p => { c with hsplit_perc := p, vsplit_perc := p }
    | none => c
  let c := match cmd.vsplit_perc with
    | some p => { c with vsplit_perc := p }
    | none => c
  match cmd.hsplit_perc with
  | some p => { c with hsplit_perc := p }
  | none => c

/-- Model of `UserCmd::handle_outer_gaps` (user_cmd.rs 100-119), inlined in
`BSPLayout::user_cmd` at lib.rs 512-529. -/
def UserCmd.handle_outer_gaps (cmd : UserCmd) (c : BSPLayout) : BSPLayout :=
  let c := match cmd.default_outer_gap with
    | some g => { c with og_top := g, og_bottom := g, og_right := g, og_left := g }
    | none => c
  let c := match cmd.og_top with
    | some g => { c with og_top := g }
    | none => c
  let c := match cmd.og_bottom with
    | some g => { c with og_bottom := g }
    | none => c
  let c := match cmd.og_right with
    | some g => { c with og_right := g }
    | none => c
  match cmd.og_left with
  | some g => { c with og_left := g }
  | none => c

/-- Model of `UserCmd::handle_inner_gaps` (user_cmd.rs 121-140), inlined in
`BSPLayout::user_cmd` at lib.rs 531-548. -/
def UserCmd.handle_inner_gaps (cmd : UserCmd) (c : BSPLayout) : BSPLayout :=
  let c := match cmd.default_inner_gap with
    | some g => { c with ig_top := g, ig_bottom := g, ig_right := g, ig_left := g }
    | none => c
  let c := match cmd.ig_top with
    | some g => { c with ig_top := g }
    | none => c
  let c := match cmd.ig_bottom with
    | some g => { c with ig_bottom := g }
    | none => c
  let c := match cmd.ig_right with
    | some g => { c with ig_right := g }
    | none => c
  match cmd.ig_left with
  | some g => { c with ig_left := g }
  | none => c

/-- Model of `UserCmd::handle_ch_split` (user_cmd.rs 142-172), inlined in
`BSPLayout::user_cmd` at lib.rs 550-578. -/
def UserCmd.handle_ch_split (cmd : UserCmd) (c : BSPLayout) : BSPLayout :=
  let c := match cmd.inc_hsplit with
    | some p => if c.hsplit_perc + p < 1 then { c with hsplit_perc := c.hsplit_perc + p }
      else { c with hsplit_perc := q9999 }
    | none => c
  let c := match cmd.inc_vsplit with
    | some p => if c.vsplit_perc + p < 1 then { c with vsplit_perc := c.vsplit_perc + p }
      else { c with vsplit_perc := q9999 }
    | none => c
  let c := match cmd.dec_hsplit with
    | some p => if 0 < c.hsplit_perc - p then { c with hsplit_perc := c.hsplit_perc - p }
      else { c with hsplit_perc := q0001 }
    | none => c
  match cmd.dec_vsplit with
  | some p => if 0 < c.vsplit_perc - p then { c with vsplit_perc := c.vsplit_perc - p }
    else { c with vsplit_perc := q0001 }
  | none => c

/-- Model of `BSPLayout::user_cmd` (lib.rs 471-581).  `parsed = none` models a
clap parse failure (unrecognised keyword or malformed numeric argument): the
Rust code prints the parse error and returns `Ok(())` without touching any
field, which is modelled by returning the configuration unchanged.  `parsed =
some cmd` models a successfully parsed command; lib.rs inlines the bodies of
the `handle_*` methods of `user_cmd.rs` in the order start flags, reverse,
set split, outer gaps, inner gaps, inc/dec split.  The result pair carries the
configuration after the call (the `&mut self` state) and the returned
`Result<(), BSPLayoutError>`; the mutual-exclusion failure returns before any
field is written, so the state component is the unchanged input there. -/
def user_cmd (c : BSPLayout) (parsed : Option UserCmd) :
    BSPLayout × Except BSPLayoutError Unit :=
  match parsed with
  | none => (c, .ok ())
  | some cmd =>
    match cmd.handle_start_split c with
    | .error e => (c, .error e)
    | .ok c =>
      (cmd.handle_ch_split (cmd.handle_inner_gaps (cmd.handle_outer_gaps
        (cmd.handle_set_split (cmd.handle_reverse c)))), .ok ())

/-- Set of integer pixels inside the axis-aligned box with origin `(x, y)`,
width `w` and height `h`. -/
def regionSet (x y : Int) (w h : Nat) : Set (Int × Int) :=
  {p | x ≤ p.1 ∧ p.1 < x + w ∧ y ≤ p.2 ∧ p.2 < y + h}

/-- Set of integer pixels covered by a rectangle. -/
def rectSet (r : Rectangle) : Set (Int × Int) :=
  regionSet r.x r.y r.width r.height

/-- Union of the pixel sets of a list of rectangles. -/
def unionSet (l : List Rectangle) : Set (Int × Int) :=
  l.foldr (fun r S => rectSet r ∪ S) ∅

/-- The rectangles of `l` are pairwise non-overlapping and exactly cover `S`. -/
def tilesRegion (l : List Rectangle) (S : Set (Int × Int)) : Prop :=
  l.Pairwise (fun a b => Disjoint (rectSet a) (rectSet b)) ∧ unionSet l = S

/-- Configuration used by the repository's own unit tests: `BSPLayout::new()`
with all gaps set to zero. -/
def zeroGapCfg : BSPLayout :=
  { BSPLayout.new with
    ig_left := 0, ig_right := 0, ig_bottom := 0, ig_top := 0,
    og_left := 0, og_right := 0, og_bottom := 0, og_top := 0 }

/-- Zero-gap configuration whose outer gaps consume the whole usable width of
a 10-pixel-wide output: the interior width is exactly 0. -/
def pinchedCfg : BSPLayout := { zeroGapCfg with og_left := 5, og_right := 5 }

/-- Zero-gap configuration with reversal enabled, as in the repository's
`test_generate_layout_reverse`. -/
def reversedCfg : BSPLayout := { zeroGapCfg with reversed := true }

/-- Zero-gap configuration with a left inner gap far larger than the canvas. -/
def hugeGapCfg : BSPLayout := { zeroGapCfg with ig_left := 100 }

/-- Configuration reachable by direct field assignment, as in the repository's
`test_generate_layout_split`: `vsplit_perc` set to exactly 0. -/
def invalidPercCfg : BSPLayout := { zeroGapCfg with vsplit_perc := 0 }

/-- The rational 3/2, an out-of-range split percentage. -/
def threeHalvesQ : ℚ := ⟨3, 2, by decide, by decide⟩

/-- Parsed form of the command string `--split-perc 1.5`: an out-of-range
split percentage that clap accepts as a well-formed `f32`. -/
def splitPerc15Cmd : UserCmd := { default_split_perc := some threeHalvesQ }

/-- Parsed form of a command carrying both `--start-hsplit` and
`--start-vsplit`. -/
def bothStartFlagsCmd : UserCmd := { start_hsplit := true, start_vsplit := true }

theorem ratFloorMul_eq_floor (w : Nat) (p : ℚ) :
    ratFloorMul w p = (⌊(w : ℚ) * p⌋).toNat := by
  have h : (w : ℚ) * p = ((w * p.num : Int) : ℚ) / ((p.den : Nat) : ℚ) := by
    conv_lhs => rw [← Rat.num_div_den p]
    push_cast
    ring
  rw [ratFloorMul, h, Rat.floor_intCast_div_natCast]

theorem ratFloorMul_halfQ (w : Nat) : ratFloorMul w halfQ = w / 2 := by
  unfold ratFloorMul halfQ
  simp
  omega

theorem childExtent_pos (gap ext : Nat) : 1 ≤ childExtent gap ext := by
  unfold childExtent
  split <;> omega

theorem clampSplit_le (canvas : Nat) (perc : ℚ) (h : 1 ≤ canvas) :
    clampSplit canvas perc ≤ canvas - 1 := by
  simp only [clampSplit]
  split <;> split <;> omega

theorem clampSplit_halfQ (canvas : Nat) (h : 2 ≤ canvas) :
    clampSplit canvas halfQ = canvas / 2 := by
  have h1 : ¬ canvas / 2 = 0 := by omega
  have h2 : ¬ canvas ≤ canvas / 2 := by omega
  simp only [clampSplit, ratFloorMul_halfQ, h1, if_false, h2, ite_false]

example : generate_layout zeroGapCfg 1 1920 1080 =
    some (.ok [⟨0, 0, 1920, 1080⟩]) := by decide

example : generate_layout zeroGapCfg 2 1920 1080 =
    some (.ok [⟨0, 0, 960, 1080⟩, ⟨960, 0, 960, 1080⟩]) := by decide

example : generate_layout zeroGapCfg 3 1920 1080 =
    some (.ok [⟨0, 0, 960, 1080⟩, ⟨960, 0, 960, 540⟩, ⟨960, 540, 960, 540⟩]) := by decide

example : generate_layout zeroGapCfg 4 1920 1080 =
    some (.ok [⟨0, 0, 960, 540⟩, ⟨0, 540, 960, 540⟩,
      ⟨960, 0, 960, 540⟩, ⟨960, 540, 960, 540⟩]) := by decide

example : generate_layout { BSPLayout.new with og_top := 0, ig_left := 10, ig_right := 10, ig_top := 10, ig_bottom := 10 } 4 1920 1080 =
    some (.ok [⟨10, 0, 940, 525⟩, ⟨10, 545, 940, 525⟩,
      ⟨970, 0, 940, 525⟩, ⟨970, 545, 940, 525⟩]) := by decide

theorem setup_split_valid (c : BSPLayout) (n : Nat)
    (h1 : 0 < c.vsplit_perc) (h2 : c.vsplit_perc < 1)
    (h3 : 0 < c.hsplit_perc) (h4 : c.hsplit_perc < 1) :
    setup_split c n = .ok (n / 2, n % 2) := by
  have hcond : ¬(c.vsplit_perc ≤ 0 ∨ 1 ≤ c.vsplit_perc ∨
      c.hsplit_perc ≤ 0 ∨ 1 ≤ c.hsplit_perc) := by
    push_neg
    exact ⟨h1, h2, h3, h4⟩
  simp [setup_split, hcond]

theorem setup_split_invalid (c : BSPLayout) (n : Nat)
    (h : c.vsplit_perc ≤ 0 ∨ 1 ≤ c.vsplit_perc ∨
      c.hsplit_perc ≤ 0 ∨ 1 ≤ c.hsplit_perc) :
    setup_split c n =
      .error (.LayoutError "Split percents must be > 0.0 and less than 1.0") := by
  simp [setup_split, h]

theorem bspSplit_invalid (c : BSPLayout)
    (h : c.vsplit_perc ≤ 0 ∨ 1 ≤ c.vsplit_perc ∨
      c.hsplit_perc ≤ 0 ∨ 1 ≤ c.hsplit_perc)
    (fuel : Nat) (horiz : Bool) (x y : Int) (w hh n : Nat) :
    bspSplit c (fuel + 1) horiz x y w hh n =
      some (.error (.LayoutError "Split percents must be > 0.0 and less than 1.0")) := by
  cases horiz <;> simp [bspSplit, setup_split_invalid c n h]

/-- C7: if `vsplit_perc` or `hsplit_perc` is not strictly between 0 and 1,
`generate_layout` fails with a `LayoutError` (and hence returns no
rectangles), for every view count and every usable size whose outer gaps do
not underflow the interior subtraction. -/
theorem c7_invalid_split_perc_layout_error (c : BSPLayout) (n uw uh : Nat)
    (hperc : c.vsplit_perc ≤ 0 ∨ 1 ≤ c.vsplit_perc ∨
      c.hsplit_perc ≤ 0 ∨ 1 ≤ c.hsplit_perc)
    (hw : c.og_left + c.og_right ≤ uw) (hh : c.og_top + c.og_bottom ≤ uh) :
    generate_layout c n uw uh =
      some (.error (.LayoutError "Split percents must be > 0.0 and less than 1.0")) := by
  have hcond : ¬(uw < c.og_left + c.og_right ∨ uh < c.og_top + c.og_bottom) := by omega
  unfold generate_layout
  rw [if_neg hcond]
  cases hs : c.start_hsplit <;> simp [hsplit, vsplit, bspSplit_invalid c hperc]

/-- Witness for C7 at `vsplit_perc = 0`, view count 4, a 1920x1080 output. -/
theorem c7_witness :
    generate_layout invalidPercCfg 4 1920 1080 =
      some (.error (.LayoutError "Split percents must be > 0.0 and less than 1.0")) :=
  c7_invalid_split_perc_layout_error invalidPercCfg 4 1920 1080
    (Or.inl (by decide)) (by decide) (by decide)

/-- C8: a command carrying both `start-hsplit` and `start-vsplit` makes
`user_cmd` fail with a `CmdError`, and the configuration state after the call
is exactly the input configuration: no field is mutated. -/
theorem c8_both_start_flags_cmd_error (c : BSPLayout) (cmd : UserCmd)
    (h1 : cmd.start_hsplit = true) (h2 : cmd.start_vsplit = true) :
    user_cmd c (some cmd) =
      (c, .error (.CmdError
        "start-hsplit and start-vsplit are mutually exclusive. Please select only one")) := by
  simp [user_cmd, UserCmd.handle_start_split, h1, h2]

/-- Witness for C8 on the default configuration. -/
theorem c8_witness :
    user_cmd BSPLayout.new (some bothStartFlagsCmd) =
      (BSPLayout.new, .error (.CmdError
        "start-hsplit and start-vsplit are mutually exclusive. Please select only one")) :=
  c8_both_start_flags_cmd_error BSPLayout.new bothStartFlagsCmd rfl rfl

/-- C5 (code bug): when the argument parser rejects the command string -- an
unrecognised keyword or a malformed numeric argument -- `user_cmd` prints the
parse error and returns `Ok(())` with every configuration field unchanged,
instead of the `CmdError` promised by its documentation and asserted by the
crate's own `test_send_user_cmds` on input `foo-bar 5678`. -/
theorem c5_parse_failure_returns_ok (c : BSPLayout) :
    user_cmd c none = (c, .ok ()) := rfl

/-- C6 (code bug): the parsed command `--split-perc 1.5` carries the
out-of-range value 3/2 (3/2 ≥ 1), yet `user_cmd` assigns it to both
`hsplit_perc` and `vsplit_perc` and returns `Ok(())`: no range validation
exists on the clap path, although the crate's `test_send_user_cmds` asserts
that out-of-range set-split commands fail. -/
theorem c6_out_of_range_split_assigned (c : BSPLayout) :
    user_cmd c (some splitPerc15Cmd) =
      ({ c with hsplit_perc := threeHalvesQ, vsplit_perc := threeHalvesQ }, .ok ()) ∧
    1 ≤ threeHalvesQ :=
  ⟨rfl, by decide⟩

/-- C3 counterexample: with outer gaps summing exactly to the usable width
(interior width 0) and one view, `generate_layout` returns `Ok` with a
zero-width rectangle rather than failing with a `LayoutError`. -/
theorem c3_counterexample :
    generate_layout pinchedCfg 1 10 10 = some (.ok [⟨5, 0, 0, 10⟩]) := by decide

/-- C3 amended: `generate_layout` performs no degenerate-canvas check.  With
valid split percentages, outer gaps summing exactly to the usable width, and
view count 1, it returns `Ok` with a single zero-width rectangle.  (When the
outer gaps exceed the usable size, the `u32` interior subtraction underflows
-- a panic in debug builds -- instead of producing a `LayoutError`.) -/
theorem c3_amended_zero_interior_ok (c : BSPLayout) (uw uh : Nat)
    (h1 : 0 < c.vsplit_perc) (h2 : c.vsplit_perc < 1)
    (h3 : 0 < c.hsplit_perc) (h4 : c.hsplit_perc < 1)
    (hw : c.og_left + c.og_right = uw) (hh : c.og_top + c.og_bottom ≤ uh) :
    generate_layout c 1 uw uh =
      some (.ok [⟨(c.og_left : Int), (c.og_top : Int), 0,
        uh - c.og_top - c.og_bottom⟩]) := by
  have hcond : ¬(uw < c.og_left + c.og_right ∨ uh < c.og_top + c.og_bottom) := by omega
  have hw0 : uw - c.og_left - c.og_right = 0 := by omega
  unfold generate_layout
  rw [if_neg hcond, hw0]
  cases hs : c.start_hsplit <;>
    simp [hsplit, vsplit, bspSplit, setup_split_valid c 1 h1 h2 h3 h4]

/-- Witness for the amended C3 on the pinched configuration. -/
theorem c3_amended_witness :
    generate_layout pinchedCfg 1 10 10 = some (.ok [⟨5, 0, 0, 10⟩]) ∧
    pinchedCfg.og_left + pinchedCfg.og_right = 10 :=
  ⟨c3_amended_zero_interior_ok pinchedCfg 10 10 (by decide) (by decide)
    (by decide) (by decide) (by decide) (by decide), by decide⟩

/-- C9 counterexample: with three views, zero gaps, split 1/2 and `reversed`,
the two views of the physically-first (left) half are NOT emitted top before
bottom: the second emitted view is the bottom rectangle (y = 540), not the
top one (y = 0), on a 1920x1080 output. -/
theorem c9_counterexample :
    generate_layout reversedCfg 3 1920 1080 =
      some (.ok [⟨960, 0, 960, 1080⟩, ⟨0, 540, 960, 540⟩, ⟨0, 0, 960, 540⟩]) ∧
    (⟨0, 540, 960, 540⟩ : Rectangle) ≠ ⟨0, 0, 960, 540⟩ := by
  exact ⟨by decide, by decide⟩

/-- C9 amended: with three views, zero gaps, split 1/2, `start_hsplit = false`
and `reversed = true`, the first emitted view is the physically-second (right)
half at full height, and the remaining two views fill the physically-first
(left) half emitted bottom first, then top. -/
theorem c9_amended_reversed_order :
    generate_layout reversedCfg 3 1920 1080 =
      some (.ok [⟨960, 0, 960, 1080⟩, ⟨0, 540, 960, 540⟩, ⟨0, 0, 960, 540⟩]) := by
  decide

/-- C10 counterexample: with an inner gap (100) larger than the canvas, an
emitted rectangle starts at x = 105, beyond the 10-pixel-wide canvas: emitted
rectangles do NOT always lie within the canvas. -/
theorem c10_counterexample :
    generate_layout hugeGapCfg 2 10 10 =
      some (.ok [⟨0, 0, 5, 10⟩, ⟨105, 0, 1, 10⟩]) ∧
    ¬ rectSet ⟨105, 0, 1, 10⟩ ⊆ regionSet 0 0 10 10 := by
  refine ⟨by decide, fun hsub => ?_⟩
  have hmem : ((105 : Int), (0 : Int)) ∈ rectSet ⟨105, 0, 1, 10⟩ := by
    norm_num [rectSet, regionSet]
  have hout := hsub hmem
  norm_num [regionSet] at hout

/-- C2 counterexample: on a 1-pixel-wide interior with two views and zero
gaps, `generate_layout` emits two identical overlapping rectangles, so the
emitted rectangles are neither pairwise non-overlapping nor a partition of
the canvas. -/
theorem c2_counterexample :
    generate_layout zeroGapCfg 2 1 1 =
      some (.ok [⟨0, 0, 1, 1⟩, ⟨0, 0, 1, 1⟩]) ∧
    ¬ Disjoint (rectSet ⟨0, 0, 1, 1⟩) (rectSet ⟨0, 0, 1, 1⟩) := by
  refine ⟨by decide, ?_⟩
  rw [Set.not_disjoint_iff]
  exact ⟨((0 : Int), (0 : Int)), by norm_num [rectSet, regionSet],
    by norm_num [rectSet, regionSet]⟩

theorem bspSplit_count (c : BSPLayout)
    (h1 : 0 < c.vsplit_perc) (h2 : c.vsplit_perc < 1)
    (h3 : 0 < c.hsplit_perc) (h4 : c.hsplit_perc < 1) :
    ∀ n fuel horiz x y w h, 1 ≤ n → n ≤ fuel → 1 ≤ w → 1 ≤ h →
      ∃ l, bspSplit c fuel horiz x y w h n = some (.ok l) ∧ l.length = n := by
  intro n
  induction n using Nat.strong_induction_on with
  | _ n IH =>
    intro fuel horiz x y w h hn hfuel hw hh
    obtain ⟨f, rfl⟩ : ∃ f, fuel = f + 1 := ⟨fuel - 1, by omega⟩
    by_cases hone : n = 1
    · subst hone
      refine ⟨[⟨x, y, w, h⟩], ?_, rfl⟩
      cases horiz <;>
        simp [bspSplit, setup_split_valid c 1 h1 h2 h3 h4]
    · have hn2 : 2 ≤ n := by omega
      have hwz : ¬ w = 0 := by omega
      have hhz : ¬ h = 0 := by omega
      cases horiz
      · simp only [bspSplit, setup_split_valid c n h1 h2 h3 h4, hone, hwz, if_false]
        set A := clampSplit w c.vsplit_perc with hA
        set G1 := (if (!c.reversed) = true then c.ig_right else c.ig_left) with hG1
        set G2 := (if (!c.reversed) = true then c.ig_left else c.ig_right) with hG2
        set PX := (if (!c.reversed) = true then x
          else ((w - A : Nat) : Int) + x + (G1 : Int)) with hPX
        set SX := (if (!c.reversed) = true then ((A : Nat) : Int) + x + (G2 : Int)
          else x) with hSX
        obtain ⟨l1, e1, len1⟩ := IH (n / 2) (by omega) f true PX y
          (childExtent G1 A) h (by omega) (by omega) (childExtent_pos _ _) hh
        obtain ⟨l2, e2, len2⟩ := IH (n / 2 + n % 2) (by omega) f true SX y
          (childExtent G2 (w - A)) h (by omega) (by omega) (childExtent_pos _ _) hh
        refine ⟨l1 ++ l2, ?_, ?_⟩
        · simp only [e1, e2]
        · simp only [List.length_append, len1, len2]
          omega
      · simp only [bspSplit, setup_split_valid c n h1 h2 h3 h4, hone, hhz, if_false]
        set A := clampSplit h c.hsplit_perc with hA
        set G1 := (if (!c.reversed) = true then c.ig_bottom else c.ig_top) with hG1
        set G2 := (if (!c.reversed) = true then c.ig_top else c.ig_bottom) with hG2
        set PY := (if (!c.reversed) = true then y
          else ((h - A : Nat) : Int) + y + (G1 : Int)) with hPY
        set SY := (if (!c.reversed) = true then ((A : Nat) : Int) + y + (G2 : Int)
          else y) with hSY
        obtain ⟨l1, e1, len1⟩ := IH (n / 2) (by omega) f false x PY
          w (childExtent G1 A) (by omega) (by omega) hw (childExtent_pos _ _)
        obtain ⟨l2, e2, len2⟩ := IH (n / 2 + n % 2) (by omega) f false x SY
          w (childExtent G2 (h - A)) (by omega) (by omega) hw (childExtent_pos _ _)
        refine ⟨l1 ++ l2, ?_, ?_⟩
        · simp only [e1, e2]
        · simp only [List.length_append, len1, len2]
          omega

/-- C1: with a valid configuration (split percentages strictly between 0 and
1) and a canvas whose interior is positive after subtracting the outer gaps,
`generate_layout` returns `Ok` with a list of exactly `n` rectangles, for
every `n ≥ 1`. -/
theorem c1_generate_layout_count (c : BSPLayout) (n uw uh : Nat)
    (h1 : 0 < c.vsplit_perc) (h2 : c.vsplit_perc < 1)
    (h3 : 0 < c.hsplit_perc) (h4 : c.hsplit_perc < 1)
    (hn : 1 ≤ n)
    (hw : c.og_left + c.og_right < uw) (hh : c.og_top + c.og_bottom < uh) :
    ∃ l, generate_layout c n uw uh = some (.ok l) ∧ l.length = n := by
  have hcond : ¬(uw < c.og_left + c.og_right ∨ uh < c.og_top + c.og_bottom) := by omega
  unfold generate_layout
  rw [if_neg hcond]
  cases hs : c.start_hsplit
  · simp only [hs, Bool.not_false, if_true, vsplit]
    exact bspSplit_count c h1 h2 h3 h4 n (n + 1) false _ _ _ _ hn (by omega)
      (by omega) (by omega)
  · simp only [hs, Bool.not_true, Bool.false_eq_true, if_false, hsplit]
    exact bspSplit_count c h1 h2 h3 h4 n (n + 1) true _ _ _ _ hn (by omega)
      (by omega) (by omega)

/-- Witness for C1: the default configuration, five views, a 1920x1080
output. -/
theorem c1_witness :
    ∃ l, generate_layout BSPLayout.new 5 1920 1080 = some (.ok l) ∧
      l.length = 5 :=
  c1_generate_layout_count BSPLayout.new 5 1920 1080 (by decide) (by decide)
    (by decide) (by decide) (by decide) (by decide) (by decide)

theorem bspSplit_zero_views (c : BSPLayout)
    (h1 : 0 < c.vsplit_perc) (h2 : c.vsplit_perc < 1)
    (h3 : 0 < c.hsplit_perc) (h4 : c.hsplit_perc < 1) :
    ∀ fuel horiz x y w h, bspSplit c fuel horiz x y w h 0 = none := by
  intro fuel
  induction fuel with
  | zero => intro horiz x y w h; rfl
  | succ f IH =>
    intro horiz x y w h
    cases horiz <;>
      simp [bspSplit, setup_split_valid c 0 h1 h2 h3 h4, IH]

/-- C4 counterexample: with zero views, the `hsplit`/`vsplit` recursion never
terminates -- no amount of fuel makes it produce a result -- and
`generate_layout` with `view_count = 0` therefore also fails to finish.  (In
Rust this is an unbounded mutual recursion, a stack overflow.) -/
theorem c4_counterexample :
    (∀ fuel, hsplit zeroGapCfg fuel 0 0 1920 1080 0 = none) ∧
    (∀ fuel, vsplit zeroGapCfg fuel 0 0 1920 1080 0 = none) ∧
    generate_layout zeroGapCfg 0 1920 1080 = none := by
  refine ⟨fun fuel => ?_, fun fuel => ?_, by decide⟩
  · exact bspSplit_zero_views zeroGapCfg (by decide) (by decide) (by decide)
      (by decide) fuel true 0 0 1920 1080
  · exact bspSplit_zero_views zeroGapCfg (by decide) (by decide) (by decide)
      (by decide) fuel false 0 0 1920 1080

/-- C4 amended: for every view count `n ≥ 1` (and positive canvas sizes, with
valid split percentages) the `hsplit`/`vsplit` recursion terminates, within a
recursion depth bounded by the view count itself: fuel `n` already suffices.
For `n = 0` it does not terminate (see the counterexample). -/
theorem c4_amended_terminates (c : BSPLayout) (n : Nat) (x y : Int) (w h : Nat)
    (h1 : 0 < c.vsplit_perc) (h2 : c.vsplit_perc < 1)
    (h3 : 0 < c.hsplit_perc) (h4 : c.hsplit_perc < 1)
    (hn : 1 ≤ n) (hw : 1 ≤ w) (hh : 1 ≤ h) :
    (hsplit c n x y w h n).isSome ∧ (vsplit c n x y w h n).isSome := by
  obtain ⟨l1, e1, -⟩ := bspSplit_count c h1 h2 h3 h4 n n true x y w h hn
    (le_refl n) hw hh
  obtain ⟨l2, e2, -⟩ := bspSplit_count c h1 h2 h3 h4 n n false x y w h hn
    (le_refl n) hw hh
  exact ⟨by simp [hsplit, e1], by simp [vsplit, e2]⟩

/-- Witness for the amended C4: seven views with fuel seven. -/
theorem c4_amended_witness :
    (hsplit BSPLayout.new 7 3 4 100 90 7).isSome ∧
    (vsplit BSPLayout.new 7 3 4 100 90 7).isSome :=
  c4_amended_terminates BSPLayout.new 7 3 4 100 90 (by decide) (by decide)
    (by decide) (by decide) (by decide) (by decide) (by decide)

theorem childExtent_le (gap ext m : Nat) (hm : 1 ≤ m) (he : ext ≤ m) :
    childExtent gap ext ≤ m := by
  unfold childExtent
  split <;> omega

theorem childExtent_zero_pos (ext : Nat) (he : 1 ≤ ext) : childExtent 0 ext = ext := by
  unfold childExtent
  split <;> omega

theorem regionSet_mono {x y x' y' : Int} {w h w' h' : Nat}
    (hx : x ≤ x') (hx2 : x' + (w' : Int) ≤ x + (w : Int))
    (hy : y ≤ y') (hy2 : y' + (h' : Int) ≤ y + (h : Int)) :
    regionSet x' y' w' h' ⊆ regionSet x y w h := by
  intro p hp
  simp only [regionSet, Set.mem_setOf_eq] at hp ⊢
  omega

theorem bspSplit_within (c : BSPLayout)
    (h1 : 0 < c.vsplit_perc) (h2 : c.vsplit_perc < 1)
    (h3 : 0 < c.hsplit_perc) (h4 : c.hsplit_perc < 1)
    (higl : c.ig_left = 0) (higr : c.ig_right = 0)
    (higb : c.ig_bottom = 0) (higt : c.ig_top = 0)
    (hrev : c.reversed = false) :
    ∀ n fuel horiz x y w h, 1 ≤ n → n ≤ fuel → 1 ≤ w → 1 ≤ h →
      ∃ l, bspSplit c fuel horiz x y w h n = some (.ok l) ∧ l.length = n ∧
        ∀ r ∈ l, rectSet r ⊆ regionSet x y w h := by
  intro n
  induction n using Nat.strong_induction_on with
  | _ n IH =>
    intro fuel horiz x y w h hn hfuel hw hh
    obtain ⟨f, rfl⟩ : ∃ f, fuel = f + 1 := ⟨fuel - 1, by omega⟩
    by_cases hone : n = 1
    · subst hone
      refine ⟨[⟨x, y, w, h⟩], ?_, rfl, ?_⟩
      · cases horiz <;>
          simp [bspSplit, setup_split_valid c 1 h1 h2 h3 h4]
      · intro r hr
        rw [List.mem_singleton] at hr
        subst hr
        exact subset_rfl
    · have hn2 : 2 ≤ n := by omega
      have hwz : ¬ w = 0 := by omega
      have hhz : ¬ h = 0 := by omega
      cases horiz
      · have hA := clampSplit_le w c.vsplit_perc hw
        simp only [bspSplit, setup_split_valid c n h1 h2 h3 h4, hone, hwz, if_false,
          hrev, Bool.not_false, if_true, higl, higr, Nat.cast_zero, add_zero]
        set A := clampSplit w c.vsplit_perc with hadef
        obtain ⟨l1, e1, len1, sub1⟩ := IH (n / 2) (by omega) f true x y
          (childExtent 0 A) h (by omega) (by omega) (childExtent_pos _ _) hh
        obtain ⟨l2, e2, len2, sub2⟩ := IH (n / 2 + n % 2) (by omega) f true
          ((A : Int) + x) y (childExtent 0 (w - A)) h (by omega) (by omega)
          (childExtent_pos _ _) hh
        refine ⟨l1 ++ l2, ?_, ?_, ?_⟩
        · simp only [e1, e2]
        · simp only [List.length_append, len1, len2]
          omega
        · intro r hr
          rcases List.mem_append.1 hr with hr1 | hr2
          · refine (sub1 r hr1).trans (regionSet_mono le_rfl ?_ le_rfl le_rfl)
            have := childExtent_le 0 A w hw (by omega)
            omega
          · refine (sub2 r hr2).trans (regionSet_mono (by omega) ?_ le_rfl le_rfl)
            have := childExtent_zero_pos (w - A) (by omega)
            omega
      · have hA := clampSplit_le h c.hsplit_perc hh
        simp only [bspSplit, setup_split_valid c n h1 h2 h3 h4, hone, hhz, if_false,
          hrev, Bool.not_false, if_true, higb, higt, Nat.cast_zero, add_zero]
        set A := clampSplit h c.hsplit_perc with hadef
        obtain ⟨l1, e1, len1, sub1⟩ := IH (n / 2) (by omega) f false x y
          w (childExtent 0 A) (by omega) (by omega) hw (childExtent_pos _ _)
        obtain ⟨l2, e2, len2, sub2⟩ := IH (n / 2 + n % 2) (by omega) f false
          x ((A : Int) + y) w (childExtent 0 (h - A)) (by omega) (by omega)
          hw (childExtent_pos _ _)
        refine ⟨l1 ++ l2, ?_, ?_, ?_⟩
        · simp only [e1, e2]
        · simp only [List.length_append, len1, len2]
          omega
        · intro r hr
          rcases List.mem_append.1 hr with hr1 | hr2
          · refine (sub1 r hr1).trans (regionSet_mono le_rfl le_rfl le_rfl ?_)
            have := childExtent_le 0 A h hh (by omega)
            omega
          · refine (sub2 r hr2).trans (regionSet_mono le_rfl le_rfl (by omega) ?_)
            have := childExtent_zero_pos (h - A) (by omega)
            omega

theorem unionSet_nil : unionSet [] = ∅ := rfl

theorem unionSet_cons (r : Rectangle) (l : List Rectangle) :
    unionSet (r :: l) = rectSet r ∪ unionSet l := rfl

theorem unionSet_append (l1 l2 : List Rectangle) :
    unionSet (l1 ++ l2) = unionSet l1 ∪ unionSet l2 := by
  induction l1 with
  | nil => simp [unionSet_nil]
  | cons r t ih => simp only [List.cons_append, unionSet_cons, ih, Set.union_assoc]

theorem rectSet_subset_unionSet (r : Rectangle) (l : List Rectangle) (hr : r ∈ l) :
    rectSet r ⊆ unionSet l := by
  induction l with
  | nil => cases hr
  | cons a t ih =>
    rw [unionSet_cons]
    rcases List.mem_cons.1 hr with rfl | hmem
    · exact Set.subset_union_left
    · exact (ih hmem).trans Set.subset_union_right

theorem tilesRegion_single (x y : Int) (w h : Nat) :
    tilesRegion [⟨x, y, w, h⟩] (regionSet x y w h) := by
  refine ⟨List.pairwise_singleton _ _, ?_⟩
  rw [unionSet_cons, unionSet_nil, Set.union_empty]
  rfl

theorem tilesRegion_append {l1 l2 : List Rectangle} {S1 S2 : Set (Int × Int)}
    (h1 : tilesRegion l1 S1) (h2 : tilesRegion l2 S2) (hd : Disjoint S1 S2) :
    tilesRegion (l1 ++ l2) (S1 ∪ S2) := by
  obtain ⟨p1, u1⟩ := h1
  obtain ⟨p2, u2⟩ := h2
  refine ⟨?_, by rw [unionSet_append, u1, u2]⟩
  rw [List.pairwise_append]
  refine ⟨p1, p2, fun a ha b hb => ?_⟩
  have hsa : rectSet a ⊆ S1 := u1 ▸ rectSet_subset_unionSet a l1 ha
  have hsb : rectSet b ⊆ S2 := u2 ▸ rectSet_subset_unionSet b l2 hb
  exact Disjoint.mono hsa hsb hd

theorem regionSet_union_x (x y : Int) (w1 w2 w h : Nat) (hw : w1 + w2 = w) :
    regionSet x y w1 h ∪ regionSet ((w1 : Int) + x) y w2 h = regionSet x y w h := by
  ext p
  simp only [regionSet, Set.mem_union, Set.mem_setOf_eq]
  omega

theorem regionSet_disjoint_x (x y : Int) (w1 w2 h : Nat) :
    Disjoint (regionSet x y w1 h) (regionSet ((w1 : Int) + x) y w2 h) := by
  rw [Set.disjoint_left]
  intro p hp hq
  simp only [regionSet, Set.mem_setOf_eq] at hp hq
  omega

theorem regionSet_union_y (x y : Int) (w h1 h2 h : Nat) (hh : h1 + h2 = h) :
    regionSet x y w h1 ∪ regionSet x ((h1 : Int) + y) w h2 = regionSet x y w h := by
  ext p
  simp only [regionSet, Set.mem_union, Set.mem_setOf_eq]
  omega

theorem regionSet_disjoint_y (x y : Int) (w h1 h2 : Nat) :
    Disjoint (regionSet x y w h1) (regionSet x ((h1 : Int) + y) w h2) := by
  rw [Set.disjoint_left]
  intro p hp hq
  simp only [regionSet, Set.mem_setOf_eq] at hp hq
  omega

theorem bspSplit_tiles (c : BSPLayout)
    (hvp : c.vsplit_perc = halfQ) (hhp : c.hsplit_perc = halfQ)
    (higl : c.ig_left = 0) (higr : c.ig_right = 0)
    (higb : c.ig_bottom = 0) (higt : c.ig_top = 0)
    (hrev : c.reversed = false) :
    ∀ n fuel horiz x y w h, 1 ≤ n → n ≤ fuel → n ≤ w → n ≤ h →
      ∃ l, bspSplit c fuel horiz x y w h n = some (.ok l) ∧ l.length = n ∧
        tilesRegion l (regionSet x y w h) := by
  have h1 : 0 < c.vsplit_perc := by rw [hvp]; decide
  have h2 : c.vsplit_perc < 1 := by rw [hvp]; decide
  have h3 : 0 < c.hsplit_perc := by rw [hhp]; decide
  have h4 : c.hsplit_perc < 1 := by rw [hhp]; decide
  intro n
  induction n using Nat.strong_induction_on with
  | _ n IH =>
    intro fuel horiz x y w h hn hfuel hw hh
    obtain ⟨f, rfl⟩ : ∃ f, fuel = f + 1 := ⟨fuel - 1, by omega⟩
    by_cases hone : n = 1
    · subst hone
      refine ⟨[⟨x, y, w, h⟩], ?_, rfl, tilesRegion_single x y w h⟩
      cases horiz <;>
        simp [bspSplit, setup_split_valid c 1 h1 h2 h3 h4]
    · have hn2 : 2 ≤ n := by omega
      have hw2 : 2 ≤ w := by omega
      have hh2 : 2 ≤ h := by omega
      have hwz : ¬ w = 0 := by omega
      have hhz : ¬ h = 0 := by omega
      cases horiz
      · have hA : clampSplit w c.vsplit_perc = w / 2 := by
          rw [hvp]
          exact clampSplit_halfQ w hw2
        have hce1 : childExtent 0 (w / 2) = w / 2 :=
          childExtent_zero_pos _ (by omega)
        have hce2 : childExtent 0 (w - w / 2) = w - w / 2 :=
          childExtent_zero_pos _ (by omega)
        simp only [bspSplit, setup_split_valid c n h1 h2 h3 h4, hone, hwz, if_false,
          hrev, Bool.not_false, if_true, higl, higr, Nat.cast_zero, add_zero,
          hA, hce1, hce2]
        obtain ⟨l1, e1, len1, t1⟩ := IH (n / 2) (by omega) f true x y
          (w / 2) h (by omega) (by omega) (by omega) (by omega)
        obtain ⟨l2, e2, len2, t2⟩ := IH (n / 2 + n % 2) (by omega) f true
          (((w / 2 : Nat) : Int) + x) y (w - w / 2) h (by omega) (by omega)
          (by omega) (by omega)
        refine ⟨l1 ++ l2, ?_, ?_, ?_⟩
        · simp only [e1, e2]
        · simp only [List.length_append, len1, len2]
          omega
        · have hu := tilesRegion_append t1 t2
            (regionSet_disjoint_x x y (w / 2) (w - w / 2) h)
          rwa [regionSet_union_x x y (w / 2) (w - w / 2) w h (by omega)] at hu
      · have hA : clampSplit h c.hsplit_perc = h / 2 := by
          rw [hhp]
          exact clampSplit_halfQ h hh2
        have hce1 : childExtent 0 (h / 2) = h / 2 :=
          childExtent_zero_pos _ (by omega)
        have hce2 : childExtent 0 (h - h / 2) = h - h / 2 :=
          childExtent_zero_pos _ (by omega)
        simp only [bspSplit, setup_split_valid c n h1 h2 h3 h4, hone, hhz, if_false,
          hrev, Bool.not_false, if_true, higb, higt, Nat.cast_zero, add_zero,
          hA, hce1, hce2]
        obtain ⟨l1, e1, len1, t1⟩ := IH (n / 2) (by omega) f false x y
          w (h / 2) (by omega) (by omega) (by omega) (by omega)
        obtain ⟨l2, e2, len2, t2⟩ := IH (n / 2 + n % 2) (by omega) f false
          x (((h / 2 : Nat) : Int) + y) w (h - h / 2) (by omega) (by omega)
          (by omega) (by omega)
        refine ⟨l1 ++ l2, ?_, ?_, ?_⟩
        · simp only [e1, e2]
        · simp only [List.length_append, len1, len2]
          omega
        · have hu := tilesRegion_append t1 t2
            (regionSet_disjoint_y x y w (h / 2) (h - h / 2))
          rwa [regionSet_union_y x y w (h / 2) (h - h / 2) h (by omega)] at hu

/-- C10 amended: with all inner gaps zero (and `reversed = false`), every
rectangle emitted by `generate_layout` lies entirely within the canvas
`[0, usable_width) x [0, usable_height)`, for every view count `n ≥ 1`, valid
split percentages and positive interior.  (With a large inner gap, or with
`reversed` set, emitted rectangles can leave the canvas -- see the
counterexample.) -/
theorem c10_amended_within_canvas (c : BSPLayout) (n uw uh : Nat)
    (h1 : 0 < c.vsplit_perc) (h2 : c.vsplit_perc < 1)
    (h3 : 0 < c.hsplit_perc) (h4 : c.hsplit_perc < 1)
    (higl : c.ig_left = 0) (higr : c.ig_right = 0)
    (higb : c.ig_bottom = 0) (higt : c.ig_top = 0)
    (hrev : c.reversed = false)
    (hn : 1 ≤ n) (hw : c.og_left + c.og_right < uw)
    (hh : c.og_top + c.og_bottom < uh) :
    ∃ l, generate_layout c n uw uh = some (.ok l) ∧ l.length = n ∧
      ∀ r ∈ l, rectSet r ⊆ regionSet 0 0 uw uh := by
  have hcond : ¬(uw < c.og_left + c.og_right ∨ uh < c.og_top + c.og_bottom) := by omega
  have hsub : regionSet (c.og_left : Int) (c.og_top : Int)
      (uw - c.og_left - c.og_right) (uh - c.og_top - c.og_bottom) ⊆
      regionSet 0 0 uw uh :=
    regionSet_mono (by omega) (by omega) (by omega) (by omega)
  unfold generate_layout
  rw [if_neg hcond]
  cases hs : c.start_hsplit
  · simp only [hs, Bool.not_false, if_true, vsplit]
    obtain ⟨l, e, len, sub⟩ := bspSplit_within c h1 h2 h3 h4 higl higr higb higt
      hrev n (n + 1) false (c.og_left : Int) (c.og_top : Int)
      (uw - c.og_left - c.og_right) (uh - c.og_top - c.og_bottom)
      hn (by omega) (by omega) (by omega)
    exact ⟨l, e, len, fun r hr => (sub r hr).trans hsub⟩
  · simp only [hs, Bool.not_true, Bool.false_eq_true, if_false, hsplit]
    obtain ⟨l, e, len, sub⟩ := bspSplit_within c h1 h2 h3 h4 higl higr higb higt
      hrev n (n + 1) true (c.og_left : Int) (c.og_top : Int)
      (uw - c.og_left - c.og_right) (uh - c.og_top - c.og_bottom)
      hn (by omega) (by omega) (by omega)
    exact ⟨l, e, len, fun r hr => (sub r hr).trans hsub⟩

/-- Witness for the amended C10: three views on the zero-gap configuration. -/
theorem c10_amended_witness :
    ∃ l, generate_layout zeroGapCfg 3 1920 1080 = some (.ok l) ∧ l.length = 3 ∧
      ∀ r ∈ l, rectSet r ⊆ regionSet 0 0 1920 1080 :=
  c10_amended_within_canvas zeroGapCfg 3 1920 1080 (by decide) (by decide)
    (by decide) (by decide) (by decide) (by decide) (by decide) (by decide)
    (by decide) (by decide) (by decide) (by decide)

/-- C2 amended: with all gaps zero on the inner edges, both split percentages
equal to 1/2, `reversed = false`, and a view count that does not exceed the
interior width or height, the rectangles emitted by `generate_layout` are
pairwise non-overlapping and their union is exactly the interior canvas (the
canvas minus the outer gaps).  (On a too-small canvas the emitted rectangles
overlap -- see the counterexample.) -/
theorem c2_amended_partition (c : BSPLayout) (n uw uh : Nat)
    (hvp : c.vsplit_perc = halfQ) (hhp : c.hsplit_perc = halfQ)
    (higl : c.ig_left = 0) (higr : c.ig_right = 0)
    (higb : c.ig_bottom = 0) (higt : c.ig_top = 0)
    (hrev : c.reversed = false)
    (hn : 1 ≤ n) (hwn : n ≤ uw - c.og_left - c.og_right)
    (hhn : n ≤ uh - c.og_top - c.og_bottom) :
    ∃ l, generate_layout c n uw uh = some (.ok l) ∧ l.length = n ∧
      tilesRegion l (regionSet (c.og_left : Int) (c.og_top : Int)
        (uw - c.og_left - c.og_right) (uh - c.og_top - c.og_bottom)) := by
  have hcond : ¬(uw < c.og_left + c.og_right ∨ uh < c.og_top + c.og_bottom) := by omega
  unfold generate_layout
  rw [if_neg hcond]
  cases hs : c.start_hsplit
  · simp only [hs, Bool.not_false, if_true, vsplit]
    exact bspSplit_tiles c hvp hhp higl higr higb higt hrev n (n + 1) false
      _ _ _ _ hn (by omega) hwn hhn
  · simp only [hs, Bool.not_true, Bool.false_eq_true, if_false, hsplit]
    exact bspSplit_tiles c hvp hhp higl higr higb higt hrev n (n + 1) true
      _ _ _ _ hn (by omega) hwn hhn

/-- Witness for the amended C2: four views on the zero-gap configuration tile
the whole 1920x1080 canvas. -/
theorem c2_amended_witness :
    ∃ l, generate_layout zeroGapCfg 4 1920 1080 = some (.ok l) ∧ l.length = 4 ∧
      tilesRegion l (regionSet 0 0 1920 1080) :=
  c2_amended_partition zeroGapCfg 4 1920 1080 rfl rfl rfl rfl rfl rfl rfl
    (by decide) (by decide) (by decide)
